import Mathlib

/-!
Verification of the snapsync snapshot pipeline (Rust sources under src/)
against its natural-language specification.

Shallow embedding: each Rust function relevant to the checked claims is
translated into an executable Lean definition.  Network and filesystem
effects are made explicit: HTTP responses, local file contents and the
working-directory file set are passed as values, and the MD5 hasher is an
abstract incremental-hashing structure (`update`/`seed`/`digest`), so that
statements about "the computed digest" are statements about the same fold
the code performs.

Translated units:
  * src/sst_verify.rs  verify_sst_magic_number
  * src/merge.rs       merge_chunks (sliding-window parallel decompression)
  * src/verify.rs      compute_file_md5, verify_local_file
  * src/download.rs    download_file_simple
  * src/orchestrator.rs  download_shard_chunks, the retry wrapper
                         (tokio_retry2 FixedInterval(10s).take(5)),
                         and download_snapshots (metadata phase, per-shard
                         stage sequencing, absence of final cleanup)
  * src/metadata.rs    download_metadata
  * src/error.rs       SnapshotError
-/

namespace SnapSync

/-! ## src/error.rs -/

/-- `SnapshotError` from src/error.rs.  The payloads of `IoError`,
`ReqwestError` and `SerdeJsonError` are modelled as their display strings;
what matters for the claims is the constructor (the tagged kind). -/
inductive SnapshotError where
  | IoError (msg : String)
  | ReqwestError (msg : String)
  | SerdeJsonError (msg : String)
  | DownloadFailed (msg : String)
deriving DecidableEq, Repr

/-- The tagged kind of a `SnapshotError` (which enum variant it is). -/
def errKind : SnapshotError → Nat
  | .IoError _ => 0
  | .ReqwestError _ => 1
  | .SerdeJsonError _ => 2
  | .DownloadFailed _ => 3

/-! ## src/types.rs -/

/-- `SnapshotMetadata` from src/types.rs. -/
structure SnapshotMetadata where
  key_base : String
  chunks : List String
  timestamp : Int
deriving DecidableEq, Repr

/-- `ExecutionStage` from src/types.rs. -/
inductive ExecutionStage where
  | All
  | DownloadOnly
  | MergeOnly
  | ExtractOnly
deriving DecidableEq, Repr, BEq

/-! ## src/sst_verify.rs -/

/-- `ROCKSDB_MAGIC_NUMBER` from src/sst_verify.rs. -/
def ROCKSDB_MAGIC_NUMBER : Nat := 0x88e241b785f4cff7

/-- `u64::from_le_bytes`: interpret a byte list little-endian (first byte is
least significant). -/
def le_u64 : List (Fin 256) → Nat
  | [] => 0
  | b :: rest => b.val + 256 * le_u64 rest

/-- `verify_sst_magic_number` from src/sst_verify.rs, on the file's byte
contents.  Mirrors the code: if the file size is under 8 bytes return
`false`; otherwise seek to `End(-8)`, read exactly 8 bytes, parse as a
little-endian u64 and compare with the constant. -/
def verify_sst_magic_number (file : List (Fin 256)) : Bool :=
  let file_size := file.length
  if file_size < 8 then
    false
  else
    let magic_bytes := (file.drop (file_size - 8)).take 8
    le_u64 magic_bytes == ROCKSDB_MAGIC_NUMBER

/-! ## src/merge.rs

`merge_chunks` spawns decompression tasks for the chunks in list order,
keeping at most `window_size` tasks in flight, and always awaits the
OLDEST pending task (`pending_tasks.remove(0)`) before appending its bytes
to the output file.  In the embedding a spawned task is its eventual
result `dec c` (decompression is a pure function of the chunk file), and
awaiting is popping the head of the pending queue.  `dec` abstracts
"open the chunk file and gzip-decompress it" and may fail. -/

/-- The inner `while pending_tasks.len() < window_size && current_index <
total_files` loop of `merge_chunks`: spawn tasks for the next chunks until
the window is full or no chunk remains. -/
def fill_window {α ε : Type} (dec : α → Except ε (List Nat)) (w : Nat) :
    List α → List (Except ε (List Nat)) → List α × List (Except ε (List Nat))
  | [], pending => ([], pending)
  | c :: rest, pending =>
    if pending.length < w then fill_window dec w rest (pending ++ [dec c])
    else (c :: rest, pending)

theorem fill_window_length {α ε : Type} (dec : α → Except ε (List Nat)) (w : Nat) :
    ∀ (remaining : List α) (pending : List (Except ε (List Nat))),
      (fill_window dec w remaining pending).1.length
        + (fill_window dec w remaining pending).2.length
        = remaining.length + pending.length := by
  intro remaining
  induction remaining with
  | nil => intro pending; simp [fill_window]
  | cons c rest ih =>
    intro pending
    simp only [fill_window]
    split
    · rw [ih]
      simp
      omega
    · simp

theorem fill_window_snd_ne_nil {α ε : Type} (dec : α → Except ε (List Nat)) (w : Nat)
    (hw : 1 ≤ w) :
    ∀ (remaining : List α) (pending : List (Except ε (List Nat))),
      (fill_window dec w remaining pending).2 = [] →
      remaining = [] ∧ pending = [] := by
  intro remaining
  induction remaining with
  | nil => intro pending h; simpa [fill_window] using h
  | cons c rest ih =>
    intro pending h
    simp only [fill_window] at h
    split at h
    · have := (ih (pending ++ [dec c]) h).2
      simp at this
    · rename_i hlt
      subst h
      simp at hlt
      omega

/-- The outer `while current_index < total_files || !pending_tasks.is_empty()`
loop of `merge_chunks`.  `acc` is the bytes already written to the tar file.
For `w = 0` the source loop would spin forever (it can neither spawn nor
pop); the embedding returns the bytes written so far in that unreachable
branch, and every theorem below assumes `1 ≤ w`, which the code guarantees
(`available_parallelism` or the fallback 4). -/
def merge_go {α ε : Type} (dec : α → Except ε (List Nat)) (w : Nat)
    (remaining : List α) (pending : List (Except ε (List Nat))) (acc : List Nat) :
    Except ε (List Nat) :=
  if remaining.isEmpty && pending.isEmpty then .ok acc
  else
    match hfw : fill_window dec w remaining pending with
    | (_, []) => .ok acc
    | (_, .error e :: _) => .error e
    | (r, .ok buffer :: ps) => merge_go dec w r ps (acc ++ buffer)
termination_by remaining.length + pending.length
decreasing_by
  have h := fill_window_length dec w remaining pending
  rw [hfw] at h
  simp at h
  omega

/-- `merge_chunks` from src/merge.rs: decompress `local_chunks` with a
sliding window of `window_size` parallel tasks and concatenate the results,
in chunk order, into the output file (returned as its byte list). -/
def merge_chunks {α ε : Type} (dec : α → Except ε (List Nat))
    (local_chunks : List α) (window_size : Nat) : Except ε (List Nat) :=
  merge_go dec window_size local_chunks [] []

/-- The purely sequential decompress-and-append loop (the pre-refactor
merge loop in src/lib.rs): for each chunk file in order, decompress it and
append the bytes to the output. -/
def merge_sequential_go {α ε : Type} (dec : α → Except ε (List Nat)) :
    List α → List Nat → Except ε (List Nat)
  | [], acc => .ok acc
  | c :: rest, acc =>
    match dec c with
    | .error e => .error e
    | .ok buffer => merge_sequential_go dec rest (acc ++ buffer)

/-- Sequential reference merge. -/
def merge_sequential {α ε : Type} (dec : α → Except ε (List Nat))
    (local_chunks : List α) : Except ε (List Nat) :=
  merge_sequential_go dec local_chunks []

/-- Specification helper: consume the pending queue in order (abort at the
first failed task), then process the unscheduled chunks sequentially. -/
def drain_spec {α ε : Type} (dec : α → Except ε (List Nat)) :
    List (Except ε (List Nat)) → List α → List Nat → Except ε (List Nat)
  | [], remaining, acc => merge_sequential_go dec remaining acc
  | .error e :: _, _, _ => .error e
  | .ok buffer :: ps, remaining, acc => drain_spec dec ps remaining (acc ++ buffer)

theorem drain_spec_push {α ε : Type} (dec : α → Except ε (List Nat)) (c : α) :
    ∀ (pending : List (Except ε (List Nat))) (rest : List α) (acc : List Nat),
      drain_spec dec (pending ++ [dec c]) rest acc = drain_spec dec pending (c :: rest) acc := by
  intro pending
  induction pending with
  | nil =>
    intro rest acc
    simp only [List.nil_append, drain_spec, merge_sequential_go]
    cases hdc : dec c with
    | error e => simp [drain_spec, hdc]
    | ok buffer => simp [drain_spec, hdc]
  | cons t ps ih =>
    intro rest acc
    cases t with
    | error e => simp [drain_spec]
    | ok buffer => simp [drain_spec, ih]

theorem fill_window_drain {α ε : Type} (dec : α → Except ε (List Nat)) (w : Nat) :
    ∀ (remaining : List α) (pending : List (Except ε (List Nat))) (acc : List Nat),
      drain_spec dec (fill_window dec w remaining pending).2
        (fill_window dec w remaining pending).1 acc
      = drain_spec dec pending remaining acc := by
  intro remaining
  induction remaining with
  | nil => intro pending acc; simp [fill_window]
  | cons c rest ih =>
    intro pending acc
    simp only [fill_window]
    split
    · rw [ih, drain_spec_push]
    · rfl

theorem merge_go_eq_drain {α ε : Type} (dec : α → Except ε (List Nat)) (w : Nat)
    (hw : 1 ≤ w) :
    ∀ (n : Nat) (remaining : List α) (pending : List (Except ε (List Nat)))
      (acc : List Nat), remaining.length + pending.length = n →
      merge_go dec w remaining pending acc = drain_spec dec pending remaining acc := by
  intro n
  induction n using Nat.strong_induction_on with
  | _ n ih =>
    intro remaining pending acc hn
    rw [merge_go]
    split
    · rename_i hempty
      simp only [Bool.and_eq_true, List.isEmpty_iff] at hempty
      rw [hempty.1, hempty.2]
      rfl
    · split
      · rename_i r hfw
        have h2 := fill_window_snd_ne_nil dec w hw remaining pending (by rw [hfw])
        rename_i hempty
        simp only [Bool.and_eq_true, List.isEmpty_iff] at hempty
        exact absurd h2 (by tauto)
      · rename_i r e rest hfw
        have h := fill_window_drain dec w remaining pending acc
        rw [hfw] at h
        simpa [drain_spec] using h
      · rename_i r buffer ps hfw
        have hlen := fill_window_length dec w remaining pending
        rw [hfw] at hlen
        simp at hlen
        have h := fill_window_drain dec w remaining pending acc
        rw [hfw] at h
        rw [ih (r.length + ps.length) (by omega) r ps (acc ++ buffer) rfl]
        rw [← h]
        rfl

theorem merge_sequential_go_ok {α ε : Type} (dec : α → Except ε (List Nat)) :
    ∀ (chunks : List α) (ds : List (List Nat)) (acc : List Nat),
      chunks.map dec = ds.map Except.ok →
      merge_sequential_go dec chunks acc = .ok (acc ++ ds.flatten) := by
  intro chunks
  induction chunks with
  | nil =>
    intro ds acc h
    have : ds = [] := by
      cases ds with
      | nil => rfl
      | cons d dsx => simp at h
    subst this
    simp [merge_sequential_go]
  | cons c rest ih =>
    intro ds acc h
    cases ds with
    | nil => simp at h
    | cons d dsx =>
      simp only [List.map_cons, List.cons.injEq] at h
      simp only [merge_sequential_go, h.1]
      rw [ih dsx (acc ++ d) h.2]
      simp

/-! ## src/verify.rs

The MD5 hasher is abstracted as an incremental-hashing implementation:
`update` consumes one block of bytes, `seed` is the fresh hasher state
(`Md5::new()`), `digest` finalizes to a hex string.  All verification
functions are parametric in it, so a result that holds for every `HashImpl`
cannot depend on hashing at all. -/

/-- Abstract incremental hash implementation (md5::Md5 in the code). -/
structure HashImpl (σ : Type) where
  update : σ → List Nat → σ
  seed : σ
  digest : σ → String

/-- Recursion worker for `blocks_of`; `fuel` starts at the list length
and strictly bounds the number of blocks, so the recursion is structural
(and hence computes by kernel reduction). -/
def blocks_of_go {β : Type} (n : Nat) : Nat → List β → List (List β)
  | _, [] => []
  | 0, _ :: _ => []
  | fuel + 1, x :: xs => ((x :: xs).take n) :: blocks_of_go n fuel ((x :: xs).drop n)

/-- Split a list into consecutive blocks of `n` elements (the successive
results of `reader.read(&mut buffer)` with an `n`-byte buffer).  `n = 0`
is a degenerate case the code never hits (its buffer is 1 MiB). -/
def blocks_of {β : Type} (n : Nat) (l : List β) : List (List β) :=
  blocks_of_go n l.length l

/-- `compute_file_md5` from src/verify.rs: stream the file through the
hasher in fixed 1 MiB (1048576-byte) blocks and finalize. -/
def compute_file_md5 {σ : Type} (h : HashImpl σ) (content : List Nat) : String :=
  h.digest ((blocks_of 1048576 content).foldl h.update h.seed)

/-- The information the HEAD request yields when it succeeds with a
success status: the parsed `content-length` header (if present and
numeric) and the `etag` header after `trim_matches('"')` (if present). -/
structure HeadInfo where
  content_length : Option Nat
  etag : Option String
deriving DecidableEq, Repr

/-- `verify_local_file` from src/verify.rs.

* `local` — the local file's bytes, `none` when `fs::metadata` fails
  (file absent); the local size is the byte count.
* `head` — `none` when the HEAD request fails or returns a non-success
  status (both return `Ok(false)` in the code).

Every code path yields `Ok(_)` in the source, so the embedding returns
`Bool`.  The `compute_file_md5` error path (unreadable file) cannot occur
for a `local` given as a value and is not modelled. -/
def verify_local_file {σ : Type} (h : HashImpl σ) (local_file : Option (List Nat))
    (skip_verify : Bool) (head : Option HeadInfo) : Bool :=
  match local_file with
  | none => false
  | some content =>
    if skip_verify then true
    else
      match head with
      | none => false
      | some info =>
        match info.content_length with
        | none => false
        | some remote_size =>
          if content.length ≠ remote_size then false
          else
            match info.etag with
            | some etag_val =>
              if etag_val.data.contains '-' then true
              else if compute_file_md5 h content = etag_val then true
              else false
            | none => true

/-! ## src/download.rs -/

/-- The successful GET response `download_file_simple` streams from:
declared `content_length` (reqwest `content_length()`), the `etag` header
after `trim_matches('"')`, and the body as the list of stream pieces. -/
structure DownloadResponse where
  content_length : Option Nat
  etag : Option String
  pieces : List (List Nat)

/-- Error message for the post-download size check (the code's message
also names the file; the embedding has no filename). -/
def size_mismatch_message (expected got : Nat) : String :=
  "File size mismatch: expected " ++ toString expected ++ " bytes, got "
    ++ toString got ++ " bytes"

/-- Error message for the post-download digest check. -/
def md5_mismatch_message (expected got : String) : String :=
  "MD5 mismatch: expected " ++ expected ++ ", got " ++ got

/-- `download_file_simple` from src/download.rs.  Returns the function
result together with the final state of the local file (`some bytes` =
the file exists with those bytes, `none` = it was deleted).

Mirrors the code: write all stream pieces to the file while feeding them
to the hasher (the hasher exists only when an etag is present); then check
the written size against `content_length` when declared (on mismatch the
file is left in place); then, when a non-multipart etag is present,
compare the hex digest against it and on mismatch delete the file
(`remove_file`) before returning the error. -/
def download_file_simple {σ : Type} (h : HashImpl σ) (resp : DownloadResponse) :
    Except SnapshotError Unit × Option (List Nat) :=
  let content := resp.pieces.flatten
  let file_size := content.length
  let size_check : Option SnapshotError :=
    match resp.content_length with
    | some content_length =>
      if file_size ≠ content_length then
        some (.IoError (size_mismatch_message content_length file_size))
      else none
    | none => none
  match size_check with
  | some e => (.error e, some content)
  | none =>
    match resp.etag with
    | some expected_etag =>
      if expected_etag.data.contains '-' then (.ok (), some content)
      else
        let computed_md5 := h.digest (resp.pieces.foldl h.update h.seed)
        if computed_md5 ≠ expected_etag then
          (.error (.IoError (md5_mismatch_message expected_etag computed_md5)), none)
        else (.ok (), some content)
    | none => (.ok (), some content)

/-! ## The retry wrapper in src/orchestrator.rs

`tokio_retry2::strategy::FixedInterval::from_millis(10_000).take(5)` is an
iterator of five 10000 ms delays.  `Retry::spawn(strategy, action)` runs
the action once, and after each transient failure takes the next delay
from the iterator, sleeps for it, and retries; when the iterator is
exhausted the last error is returned.  Every `download_file_simple` error
is wrapped `RetryError::to_transient`, so every failure is retried.

The embedding takes `action : Nat → Except ε α`, the outcome of the k-th
attempt (1-based), and returns the final result, the number of attempts
actually made, and the list of sleeps performed (in ms). -/

/-- One step of tokio_retry2 `Retry::spawn`: run the attempt; on failure
consume the next delay (sleeping it) and recurse, or surface the error
when no delay is left. -/
def retry_run {ε α : Type} (action : Nat → Except ε α) :
    List Nat → Nat → List Nat → Except ε α × Nat × List Nat
  | [], attempt, sleeps =>
    match action attempt with
    | .ok a => (.ok a, attempt, sleeps)
    | .error e => (.error e, attempt, sleeps)
  | d :: rest, attempt, sleeps =>
    match action attempt with
    | .ok a => (.ok a, attempt, sleeps)
    | .error _ => retry_run action rest (attempt + 1) (sleeps ++ [d])

/-- The retry strategy of `download_shard_chunks`:
`FixedInterval::from_millis(10_000).take(5)`. -/
def retry_strategy : List Nat := List.replicate 5 10000

/-- A chunk download wrapped in the fixed retry policy of
src/orchestrator.rs (the constants are hard-coded there; no caller input
reaches them). -/
def download_with_retry {ε α : Type} (action : Nat → Except ε α) :
    Except ε α × Nat × List Nat :=
  retry_run action retry_strategy 1 []

theorem retry_run_spec {ε α : Type} (action : Nat → Except ε α) :
    ∀ (delays sleeps0 : List Nat) (k : Nat) (r : Except ε α) (n : Nat)
      (sleeps : List Nat),
      retry_run action delays k sleeps0 = (r, n, sleeps) →
      k ≤ n ∧ n ≤ k + delays.length ∧ sleeps = sleeps0 ++ delays.take (n - k) ∧
        (∀ e, r = .error e → n = k + delays.length ∧ action n = .error e) ∧
        (∀ a, r = .ok a → action n = .ok a) := by
  intro delays
  induction delays with
  | nil =>
    intro sleeps0 k r n sleeps h
    simp only [retry_run] at h
    cases hact : action k with
    | ok a =>
      rw [hact] at h
      simp only [Prod.mk.injEq] at h
      obtain ⟨hr, hn, hs⟩ := h
      subst hr; subst hn; subst hs
      refine ⟨le_refl _, by simp, by simp, ?_, ?_⟩
      · intro e he; cases he
      · intro a2 ha; rw [hact]; cases ha; rfl
    | error e =>
      rw [hact] at h
      simp only [Prod.mk.injEq] at h
      obtain ⟨hr, hn, hs⟩ := h
      subst hr; subst hn; subst hs
      refine ⟨le_refl _, by simp, by simp, ?_, ?_⟩
      · intro e2 he
        refine ⟨by simp, ?_⟩
        rw [hact]; cases he; rfl
      · intro a ha; cases ha
  | cons d rest ih =>
    intro sleeps0 k r n sleeps h
    simp only [retry_run] at h
    cases hact : action k with
    | ok a =>
      rw [hact] at h
      simp only [Prod.mk.injEq] at h
      obtain ⟨hr, hn, hs⟩ := h
      subst hr; subst hn; subst hs
      refine ⟨le_refl _, by simp, by simp, ?_, ?_⟩
      · intro e he; cases he
      · intro a2 ha; rw [hact]; cases ha; rfl
    | error e =>
      rw [hact] at h
      obtain ⟨h1, h2, h3, h4, h5⟩ := ih (sleeps0 ++ [d]) (k + 1) r n sleeps h
      refine ⟨by omega, by simp; omega, ?_, ?_, h5⟩
      · rw [h3]
        have hk : n - k = (n - (k + 1)) + 1 := by omega
        rw [hk]
        simp
      · intro e2 he
        obtain ⟨hn, hae⟩ := h4 e2 he
        exact ⟨by simp; omega, hae⟩

/-! ## src/metadata.rs -/

/-- `metadata_path` from src/metadata.rs. -/
def metadata_path (network : String) (shard_id : Nat) : String :=
  network ++ "/" ++ toString shard_id ++ "/latest.json"

/-- The outcome of the GET on the metadata URL, when the transport layer
succeeds: the HTTP status, and whether the body parses as the
`SnapshotMetadata` schema (`some m`) or not (`none`). -/
structure MetaResponse where
  status : Nat
  body : Option SnapshotMetadata
deriving DecidableEq, Repr

/-- reqwest `StatusCode::is_success`: 2xx. -/
def is_success (status : Nat) : Bool :=
  decide (200 ≤ status) && decide (status < 300)

/-- The 404 message of `download_metadata` (apostrophes of the original
text are expanded, interpolation is string concatenation). -/
def not_found_message (network : String) (shard_id : Nat) (metadata_url : String) : String :=
  "Snapshot not found for network " ++ network ++ " shard " ++ toString shard_id
    ++ ". The metadata URL returned 404: " ++ metadata_url
    ++ "\nThis usually means:\n- The shard does not exist for this network\n"
    ++ "- The snapshot has not been created yet\n- The URL is incorrect\n"
    ++ "Available shards for FARCASTER_NETWORK_MAINNET: 0, 1, 2\n"
    ++ "Available shards for FARCASTER_NETWORK_TESTNET: 0, 1"

/-- The non-404 failure message of `download_metadata`. -/
def fetch_failed_message (metadata_url : String) (status : Nat) : String :=
  "Failed to fetch metadata from " ++ metadata_url ++ ": HTTP " ++ toString status

/-- The parse-failure message of `download_metadata` (the serde error text
it embeds is abstracted away; the expected-fields enumeration is kept). -/
def invalid_format_message (metadata_url : String) : String :=
  "Invalid metadata format from " ++ metadata_url
    ++ ": parse error\nExpected JSON with fields: key_base, chunks, timestamp"

/-- `download_metadata` from src/metadata.rs.  `resp` is the result of
`reqwest::get`: `.error e` is a transport failure (surfaced through the
`#[from] reqwest::Error` conversion as `ReqwestError`), `.ok r` a
received response.  A non-success status yields `DownloadFailed` (with a
dedicated message for 404); a body that does not parse as the schema also
yields `DownloadFailed` (via the explicit `map_err`, not `SerdeJsonError`). -/
def download_metadata (network : String) (shard_id : Nat) (base_url : String)
    (resp : Except String MetaResponse) : Except SnapshotError SnapshotMetadata :=
  let metadata_url := base_url ++ "/" ++ metadata_path network shard_id
  match resp with
  | .error e => .error (.ReqwestError e)
  | .ok r =>
    if !is_success r.status then
      if r.status == 404 then
        .error (.DownloadFailed (not_found_message network shard_id metadata_url))
      else
        .error (.DownloadFailed (fetch_failed_message metadata_url r.status))
    else
      match r.body with
      | none => .error (.DownloadFailed (invalid_format_message metadata_url))
      | some metadata => .ok metadata

/-! ## src/orchestrator.rs — download_shard_chunks -/

/-- The derived local path of a chunk:
`format!("{}/shard-{}/{}", snapshot_dir, shard_id, chunk)`. -/
def chunk_filename (snapshot_dir : String) (shard_id : Nat) (chunk : String) : String :=
  snapshot_dir ++ "/shard-" ++ toString shard_id ++ "/" ++ chunk

/-- The sequential join loop at the end of `download_shard_chunks`: the
first failed task aborts; `Ok(_)` results are discarded. -/
def first_task_error {ε α : Type} : List (Except ε α) → Option ε
  | [] => none
  | .ok _ :: rest => first_task_error rest
  | .error e :: _ => some e

/-- `download_shard_chunks` from src/orchestrator.rs.

* `verify c` — the outcome of `verify_local_file` for chunk `c` collapsed
  to a `Bool` (the code treats `Ok(false)` and `Err(_)` alike: download).
* `dl c` — the eventual result of the spawned, retry-wrapped download task
  for chunk `c` (semaphore scheduling and completion order do not affect
  values: the task list is awaited in spawn order).

The first pass walks `chunks` in metadata order, pushing the derived
filename for every chunk — whether it verified (skip) or was scheduled —
and collecting the scheduled tasks in the same order.  The second pass
awaits the tasks; the first error is returned, otherwise the filename
list. -/
def dsc_step (snapshot_dir : String) (shard_id : Nat) (verify : String → Bool)
    (dl : String → Except SnapshotError Unit)
    (acc : List String × List (Except SnapshotError Unit)) (chunk : String) :
    List String × List (Except SnapshotError Unit) :=
  let filename := chunk_filename snapshot_dir shard_id chunk
  if verify chunk then (acc.1 ++ [filename], acc.2)
  else (acc.1 ++ [filename], acc.2 ++ [dl chunk])

def download_shard_chunks (snapshot_dir : String) (shard_id : Nat)
    (chunks : List String) (verify : String → Bool)
    (dl : String → Except SnapshotError Unit) :
    Except SnapshotError (List String) :=
  let passes := chunks.foldl (dsc_step snapshot_dir shard_id verify dl) ([], [])
  match first_task_error passes.2 with
  | some e => .error e
  | none => .ok passes.1

/-! ## src/orchestrator.rs — download_snapshots

The working directory is modelled as the list of entries that exist under
it (paths relative to `snapshot_dir`): the persisted `metadata.json`, one
`shard-<id>` directory entry per shard, the chunk files
`shard-<id>/<chunk>` and the merged archives `shard_<id>_snapshot.tar`.
The target directory is disjoint from it (`extract_tar` writes only
there) and is not tracked.

The per-shard download stage is abstracted to its effect: on success all
of the shard's chunk files exist (`download_shard_chunks` downloads or
verifies each one); its internals are modelled separately above.  Merge
and extract are modelled at the filesystem level of src/merge.rs /
src/orchestrator.rs: `merge_chunks` first creates the tar file, then
opens every chunk file in order (a missing one is an `IoError`); the
extract stage first stats the tar file (missing: `IoError`), then
unpacks it into the target directory. -/

/-- Outcome of a `download_snapshots` run.  `panic` is the uncontrolled
abort of indexing `all_metadata[&shard_id.to_string()]` with a missing
key (`HashMap` `Index` panics). -/
inductive RunOutcome where
  | ok (workdir_files : List String)
  | err (e : SnapshotError)
  | panic
deriving DecidableEq, Repr

/-- The environment a run executes against. -/
structure OrchestratorEnv where
  /-- `metadata.json` under the working directory: `none` when the file is
  missing/unreadable or does not parse (`read_to_string` or `from_str`
  fails); `some m` when it parses as the shard-id → metadata mapping. -/
  persisted : Option (List (String × SnapshotMetadata))
  /-- Outcome of `download_metadata` per shard id. -/
  resolve : Nat → Except SnapshotError SnapshotMetadata
  /-- Outcome of the whole download stage of one shard. -/
  download_shard : Nat → Except SnapshotError Unit
  /-- Entries initially present under the working directory. -/
  init_files : List String

/-- `all_metadata[&key]` lookup (model of the `HashMap` read). -/
def lookup_metadata (m : List (String × SnapshotMetadata)) (key : String) :
    Option SnapshotMetadata :=
  match m.find? (fun p => p.1 == key) with
  | some p => some p.2
  | none => none

/-- Working-directory entry of the per-shard folder. -/
def shard_dir_entry (shard_id : Nat) : String := "shard-" ++ toString shard_id

/-- Working-directory entry of a downloaded chunk. -/
def chunk_entry (shard_id : Nat) (chunk : String) : String :=
  "shard-" ++ toString shard_id ++ "/" ++ chunk

/-- Working-directory entry of the merged archive:
`format!("{}/shard_{}_snapshot.tar", snapshot_dir, shard_id)`. -/
def tar_entry (shard_id : Nat) : String :=
  "shard_" ++ toString shard_id ++ "_snapshot.tar"

/-- The shards the metadata-resolution loop calls `download_metadata` for:
all of them in order when every call succeeds, otherwise the prefix up to
and including the first failing shard (`?` propagates the error). -/
def resolve_calls (resolve : Nat → Except SnapshotError SnapshotMetadata) :
    List Nat → List Nat
  | [] => []
  | s :: rest =>
    match resolve s with
    | .ok _ => s :: resolve_calls resolve rest
    | .error _ => [s]

/-- The metadata-resolution loop: fetch every shard's metadata in order,
keyed by the shard id rendered as a string; the first failure aborts. -/
def resolve_all (resolve : Nat → Except SnapshotError SnapshotMetadata) :
    List Nat → Except SnapshotError (List (String × SnapshotMetadata))
  | [] => .ok []
  | s :: rest =>
    match resolve s with
    | .error e => .error e
    | .ok m =>
      match resolve_all resolve rest with
      | .error e => .error e
      | .ok tail => .ok ((toString s, m) :: tail)

/-- The per-shard loop of `download_snapshots` (src/orchestrator.rs,
lines 112-217), threading the working-directory entries. -/
def process_shards (env : OrchestratorEnv) (stage : ExecutionStage)
    (all_metadata : List (String × SnapshotMetadata)) :
    List Nat → List String → RunOutcome
  | [], files => .ok files
  | shard_id :: rest, files =>
    match lookup_metadata all_metadata (toString shard_id) with
    | none => .panic
    | some metadata_json =>
      -- create_dir_all("{snapshot_dir}/shard-{shard_id}")
      let files1 := files ++ [shard_dir_entry shard_id]
      -- download stage
      let downloaded : Except SnapshotError (List String) :=
        if stage == .All || stage == .DownloadOnly then
          match env.download_shard shard_id with
          | .error e => .error e
          | .ok _ => .ok (files1 ++ metadata_json.chunks.map (chunk_entry shard_id))
        else
          -- not downloading: the chunk paths are only collected, no write
          .ok files1
      match downloaded with
      | .error e => .err e
      | .ok files2 =>
        if stage == .DownloadOnly then process_shards env stage all_metadata rest files2
        else
          -- merge stage
          let merged : Except SnapshotError (List String) :=
            if stage == .All || stage == .MergeOnly then
              -- merge_chunks creates the tar file first, then opens the chunks
              let files3 := files2 ++ [tar_entry shard_id]
              if metadata_json.chunks.all
                  (fun c => files3.contains (chunk_entry shard_id c)) then
                .ok files3
              else .error (.IoError "No such file or directory (chunk file)")
            else .ok files2
          match merged with
          | .error e => .err e
          | .ok files4 =>
            if stage == .MergeOnly then process_shards env stage all_metadata rest files4
            else
              -- extract stage (stage is All or ExtractOnly here):
              -- fs::metadata(&tar_filename)? then extract_tar into db_dir
              if files4.contains (tar_entry shard_id) then
                process_shards env stage all_metadata rest files4
              else .err (.IoError "No such file or directory (tar file)")

/-- `download_snapshots` from src/orchestrator.rs.  Returns the run
outcome (with the final working-directory entries on success) together
with the list of shards metadata resolution was invoked for.

Mirrors the code: for `MergeOnly`/`ExtractOnly` try to load the persisted
`metadata.json`; then, exactly when the map is still empty, resolve every
requested shard and persist `metadata.json`; then process the shards
sequentially.  After the loop the function returns `Ok(())` — no removal
of the working directory or of any file in it is performed. -/
def download_snapshots (env : OrchestratorEnv) (stage : ExecutionStage)
    (shard_ids : List Nat) : RunOutcome × List Nat :=
  let loaded : List (String × SnapshotMetadata) :=
    if stage == .MergeOnly || stage == .ExtractOnly then
      (env.persisted).getD []
    else []
  if loaded.isEmpty then
    match resolve_all env.resolve shard_ids with
    | .error e => (.err e, resolve_calls env.resolve shard_ids)
    | .ok all_metadata =>
      -- persist metadata.json, then run the shard loop
      (process_shards env stage all_metadata shard_ids
        (env.init_files ++ ["metadata.json"]),
       resolve_calls env.resolve shard_ids)
  else
    (process_shards env stage loaded shard_ids env.init_files, [])

/-! ## Helper lemmas for the claim theorems -/

theorem dsc_fold_fst (snapshot_dir : String) (shard_id : Nat)
    (verify : String → Bool) (dl : String → Except SnapshotError Unit) :
    ∀ (cs : List String) (a1 : List String) (a2 : List (Except SnapshotError Unit)),
      (cs.foldl (dsc_step snapshot_dir shard_id verify dl) (a1, a2)).1
        = a1 ++ cs.map (chunk_filename snapshot_dir shard_id) := by
  intro cs
  induction cs with
  | nil => intro a1 a2; simp
  | cons c rest ih =>
    intro a1 a2
    simp only [List.foldl_cons, dsc_step]
    split
    · rw [ih]; simp
    · rw [ih]; simp

theorem dsc_fold_snd_ok (snapshot_dir : String) (shard_id : Nat)
    (verify : String → Bool) (dl : String → Except SnapshotError Unit) :
    ∀ (cs : List String) (a1 : List String) (a2 : List (Except SnapshotError Unit)),
      (∀ x ∈ a2, x = .ok ()) →
      (∀ c ∈ cs, verify c = false → dl c = .ok ()) →
      ∀ x ∈ (cs.foldl (dsc_step snapshot_dir shard_id verify dl) (a1, a2)).2,
        x = .ok () := by
  intro cs
  induction cs with
  | nil => intro a1 a2 ha _ x hx; exact ha x hx
  | cons c rest ih =>
    intro a1 a2 ha hcs x hx
    simp only [List.foldl_cons, dsc_step] at hx
    by_cases hv : verify c
    · rw [if_pos hv] at hx
      exact ih _ _ ha (fun c2 hc2 => hcs c2 (List.mem_cons_of_mem c hc2)) x hx
    · rw [if_neg hv] at hx
      refine ih _ _ ?_ (fun c2 hc2 => hcs c2 (List.mem_cons_of_mem c hc2)) x hx
      intro y hy
      rcases List.mem_append.mp hy with hy1 | hy2
      · exact ha y hy1
      · have := hcs c (List.mem_cons_self c rest) (by simpa using hv)
        simpa [this] using hy2

theorem first_task_error_none {ε : Type} :
    ∀ (l : List (Except ε Unit)), (∀ x ∈ l, x = .ok ()) →
      first_task_error l = none := by
  intro l
  induction l with
  | nil => intro _; rfl
  | cons t rest ih =>
    intro h
    have ht := h t (List.mem_cons_self t rest)
    subst ht
    simp only [first_task_error]
    exact ih (fun x hx => h x (List.mem_cons_of_mem _ hx))

/-! ## Claim theorems -/

/-- C1: for every chunk list and every window size `w ≥ 1` (in particular
1, 2 and 3), the sliding-window `merge_chunks` computes exactly what the
purely sequential decompress-and-append loop computes, and when every
chunk decompresses successfully the output bytes are the concatenation,
in input-list order, of the decompressed chunk contents. -/
theorem merge_chunks_window_invariant {α ε : Type} (dec : α → Except ε (List Nat))
    (local_chunks : List α) (window_size : Nat) (hw : 1 ≤ window_size) :
    merge_chunks dec local_chunks window_size = merge_sequential dec local_chunks ∧
    ∀ ds : List (List Nat), local_chunks.map dec = ds.map Except.ok →
      merge_chunks dec local_chunks window_size = Except.ok ds.flatten := by
  have h1 : merge_chunks dec local_chunks window_size = merge_sequential dec local_chunks := by
    unfold merge_chunks merge_sequential
    rw [merge_go_eq_drain dec window_size hw (local_chunks.length + 0)
        local_chunks [] [] (by simp)]
    rfl
  refine ⟨h1, ?_⟩
  intro ds hds
  rw [h1]
  unfold merge_sequential
  rw [merge_sequential_go_ok dec local_chunks ds [] hds]
  simp

/-- Example decompressor for the C1 witness. -/
def dec_example : Nat → Except String (List Nat) := fun n => Except.ok [n, n + 1]

/-- C1 witness: window size 2 on three concrete chunks yields the
concatenation of the decompressed contents. -/
theorem merge_chunks_window_invariant_witness :
    merge_chunks dec_example [1, 2, 3] 2
      = Except.ok ([[1, 2], [2, 3], [3, 4]] : List (List Nat)).flatten :=
  (merge_chunks_window_invariant dec_example [1, 2, 3] 2 (by decide)).2
    [[1, 2], [2, 3], [3, 4]] rfl

/-- C8: the magic-number check rejects every file shorter than 8 bytes,
and for a file of at least 8 bytes it accepts exactly when the last 8
bytes, read as an unsigned 64-bit little-endian integer, equal
`0x88E241B785F4CFF7`. -/
theorem verify_sst_magic_number_spec (file : List (Fin 256)) :
    (file.length < 8 → verify_sst_magic_number file = false) ∧
    (8 ≤ file.length →
      (verify_sst_magic_number file = true ↔
        le_u64 (file.rtake 8) = ROCKSDB_MAGIC_NUMBER)) := by
  constructor
  · intro h
    simp [verify_sst_magic_number, h]
  · intro h
    have hlen : (file.drop (file.length - 8)).length = 8 := by
      simp
      omega
    have htake : (file.drop (file.length - 8)).take 8 = file.drop (file.length - 8) :=
      List.take_of_length_le (le_of_eq hlen)
    simp only [verify_sst_magic_number, List.rtake, htake]
    rw [if_neg (by omega)]
    simp [beq_iff_eq]

/-- A byte-exact genuine table-file tail: the magic constant in
little-endian order. -/
def sst_magic_tail : List (Fin 256) :=
  [0xf7, 0xcf, 0xf4, 0x85, 0xb7, 0x41, 0xe2, 0x88]

/-- C8 witness: a concrete 8-byte file ending in the genuine magic bytes
is accepted. -/
theorem verify_sst_magic_number_spec_witness :
    verify_sst_magic_number sst_magic_tail = true :=
  ((verify_sst_magic_number_spec sst_magic_tail).2 (by decide)).mpr (by decide)

/-- C10: with `skip_verify` set, the verifier accepts every existing local
file whatever its bytes and whatever the HEAD request would have answered
(the result is the constant `true` over the whole `head` and hasher
parameters: no remote request influences it); an absent local file is
rejected even with `skip_verify` set. -/
theorem verify_local_file_skip_verify {σ : Type} (h : HashImpl σ)
    (content : List Nat) (head : Option HeadInfo) (skip : Bool) :
    verify_local_file h (some content) true head = true ∧
    verify_local_file h none skip head = false :=
  ⟨rfl, rfl⟩

/-- C5: with `skip_verify` unset and the local file present —
(1) whenever the verifier accepts and a non-multipart entity tag was
present, the streamed MD5 hex digest of the file equals the tag;
(2) an absent remote content-length is rejected;
(3) a content-length different from the local size is rejected;
(4) when the sizes match and the tag is absent or is a multipart tag
(contains a `-`), the verifier accepts — for every hasher, so without
consulting the hash. -/
theorem verify_local_file_fingerprint {σ : Type} (h : HashImpl σ)
    (content : List Nat) (info : HeadInfo) :
    (∀ t, info.etag = some t → t.data.contains '-' = false →
      verify_local_file h (some content) false (some info) = true →
      compute_file_md5 h content = t) ∧
    (info.content_length = none →
      verify_local_file h (some content) false (some info) = false) ∧
    (∀ n, info.content_length = some n → n ≠ content.length →
      verify_local_file h (some content) false (some info) = false) ∧
    (info.content_length = some content.length →
      (info.etag = none ∨ ∃ t, info.etag = some t ∧ t.data.contains '-' = true) →
      verify_local_file h (some content) false (some info) = true) := by
  obtain ⟨cl, et⟩ := info
  refine ⟨?_, ?_, ?_, ?_⟩
  · intro t ht hdash hv
    simp only at ht
    subst ht
    cases cl with
    | none => simp [verify_local_file] at hv
    | some n =>
      by_cases hn : content.length = n
      · subst hn
        simp [verify_local_file, hdash] at hv
        exact hv.resolve_left (by simpa using hdash)
      · simp [verify_local_file, hn] at hv
  · intro hcl
    simp only at hcl
    subst hcl
    simp [verify_local_file]
  · intro n hcl hn
    simp only at hcl
    subst hcl
    have hne : content.length ≠ n := fun he => hn he.symm
    simp [verify_local_file, hne]
  · intro hcl hm
    simp only at hcl
    subst hcl
    rcases hm with hnone | ⟨t, hsome, hdash⟩
    · simp only at hnone
      subst hnone
      simp [verify_local_file]
    · simp only at hsome
      subst hsome
      simp [verify_local_file, hdash]
      exact Or.inl (by simpa using hdash)

/-- A concrete incremental "hasher" for witnesses: the state counts the
bytes consumed, the digest is that count rendered in decimal. -/
def hash_len_impl : HashImpl Nat :=
  { update := fun s block => s + block.length
    seed := 0
    digest := fun s => toString s }

/-- C5 witness: a 3-byte file accepted against content-length 3 and the
non-multipart tag "3" has streamed digest equal to the tag. -/
theorem verify_local_file_fingerprint_witness :
    compute_file_md5 hash_len_impl [7, 7, 7] = "3" :=
  (verify_local_file_fingerprint hash_len_impl [7, 7, 7]
      ⟨some 3, some "3"⟩).1 "3" rfl (by decide) (by decide)

/-- C6: whenever `download_shard_chunks` returns a list to its caller
(every scheduled download eventually succeeded — which verification
outcomes were skips does not matter, and completion order cannot matter,
the list being fixed before any task is awaited), that list has exactly
one entry per chunk, at the derived path
`<snapshot_dir>/shard-<shard_id>/<chunk>`, in exactly the order of the
metadata `chunks` field. -/
theorem download_shard_chunks_order (snapshot_dir : String) (shard_id : Nat)
    (chunks : List String) (verify : String → Bool)
    (dl : String → Except SnapshotError Unit)
    (hok : ∀ c ∈ chunks, verify c = false → dl c = .ok ()) :
    download_shard_chunks snapshot_dir shard_id chunks verify dl
      = .ok (chunks.map (chunk_filename snapshot_dir shard_id)) := by
  simp only [download_shard_chunks]
  have hsnd := dsc_fold_snd_ok snapshot_dir shard_id verify dl chunks [] []
    (by intro x hx; cases hx) hok
  rw [first_task_error_none _ hsnd]
  rw [dsc_fold_fst snapshot_dir shard_id verify dl chunks [] []]
  rfl

/-- Example verification outcome for the C6 witness: the first chunk is
already valid locally, the second is not. -/
def verify_example : String → Bool := fun c => c == "chunk_0.gz"

/-- Example download outcome for the C6 witness: every scheduled download
succeeds. -/
def dl_ok_example : String → Except SnapshotError Unit := fun _ => .ok ()

/-- C6 witness: with the first chunk skipped as valid and the second
downloaded, the returned paths are the derived ones in metadata order. -/
theorem download_shard_chunks_order_witness :
    download_shard_chunks ".rocks.snapshot" 0 ["chunk_0.gz", "chunk_1.gz"]
        verify_example dl_ok_example
      = .ok [".rocks.snapshot/shard-0/chunk_0.gz",
             ".rocks.snapshot/shard-0/chunk_1.gz"] := by
  rw [download_shard_chunks_order ".rocks.snapshot" 0 ["chunk_0.gz", "chunk_1.gz"]
    verify_example dl_ok_example (fun c _ _ => rfl)]
  rfl

/-- C7: when a download completes with a present non-multipart entity tag,
the declared content length (when present) matches the written bytes, and
the streamed digest differs from the tag, `download_file_simple` returns
the content-mismatch error with the local file deleted (`none`): no
corrupted downloaded file remains on disk. -/
theorem download_file_simple_cleanup {σ : Type} (h : HashImpl σ)
    (resp : DownloadResponse) (t : String) (het : resp.etag = some t)
    (hmp : t.data.contains '-' = false)
    (hsize : resp.content_length = none ∨
      resp.content_length = some resp.pieces.flatten.length)
    (hmd5 : h.digest (resp.pieces.foldl h.update h.seed) ≠ t) :
    download_file_simple h resp
      = (.error (.IoError (md5_mismatch_message t
          (h.digest (resp.pieces.foldl h.update h.seed)))), none) := by
  obtain ⟨cl, et, pieces⟩ := resp
  simp only at het
  subst het
  rcases hsize with hnone | hsome
  · simp only at hnone
    subst hnone
    simp [download_file_simple, hmp, hmd5]
    simpa using hmp
  · simp only at hsome
    subst hsome
    simp [download_file_simple, hmp, hmd5]
    simpa using hmp

/-- Example response for the C7 witness: two one-byte pieces, a declared
length of 2, and a non-multipart tag that cannot match the digest. -/
def resp_mismatch_example : DownloadResponse :=
  { content_length := some 2
    etag := some "zz"
    pieces := [[1], [2]] }

/-- C7 witness: the concrete mismatching download ends in the
content-mismatch error with no file left behind. -/
theorem download_file_simple_cleanup_witness :
    download_file_simple hash_len_impl resp_mismatch_example
      = (.error (.IoError (md5_mismatch_message "zz" "2")), none) := by
  rw [download_file_simple_cleanup hash_len_impl resp_mismatch_example "zz" rfl
    (by decide) (Or.inr rfl) (by decide)]
  rfl

/-- The attempt outcomes used against C3: the first five attempts fail
with a transport-style error, the sixth succeeds. -/
def retry_action_six : Nat → Except SnapshotError Unit := fun attempt =>
  if attempt < 6 then .error (.DownloadFailed "connection reset by peer") else .ok ()

/-- C3 counterexample: the retry wrapper built from
`FixedInterval::from_millis(10_000).take(5)` makes a SIXTH attempt when
the first five fail — and here that sixth attempt runs and succeeds — so
"up to 5 attempts total (not more)" is false: the budget is 1 initial
attempt plus 5 retries. -/
theorem download_with_retry_sixth_attempt :
    download_with_retry retry_action_six
      = (.ok (), 6, List.replicate 5 10000) ∧
    retry_action_six 6 = .ok () :=
  ⟨rfl, rfl⟩

/-- C3 amended: each chunk download is retried with a fixed 10-second
(10000 ms) delay between attempts, up to 6 attempts total (1 initial + 5
retries, the code's `FixedInterval::from_millis(10_000).take(5)`), after
which the last error is surfaced; the budget is hard-coded in
`download_shard_chunks` and not overridable per chunk. -/
theorem download_with_retry_budget {ε α : Type} (action : Nat → Except ε α)
    (r : Except ε α) (n : Nat) (sleeps : List Nat)
    (hrun : download_with_retry action = (r, n, sleeps)) :
    1 ≤ n ∧ n ≤ 6 ∧ sleeps = List.replicate (n - 1) 10000 ∧
    (∀ e, r = .error e → n = 6 ∧ action 6 = .error e) ∧
    (∀ a, r = .ok a → action n = .ok a) := by
  obtain ⟨h1, h2, h3, h4, h5⟩ :=
    retry_run_spec action retry_strategy [] 1 r n sleeps hrun
  refine ⟨h1, by simpa [retry_strategy] using h2, ?_, ?_, h5⟩
  · rw [h3]
    simp only [retry_strategy, List.take_replicate, List.nil_append]
    congr 1
    simp only [retry_strategy, List.length_replicate] at h2
    omega
  · intro e he
    obtain ⟨hn, hae⟩ := h4 e he
    simp only [retry_strategy, List.length_replicate] at hn
    refine ⟨by omega, ?_⟩
    have : n = 6 := by omega
    rw [this] at hae
    exact hae

/-- The attempt outcomes for the C3 witness: every attempt fails. -/
def retry_action_fail : Nat → Except SnapshotError Unit := fun _ =>
  .error (.DownloadFailed "connection refused")

/-- C3 witness: an always-failing download makes exactly 6 attempts with
five 10000 ms sleeps, then surfaces the error. -/
theorem download_with_retry_budget_witness :
    1 ≤ 6 ∧ 6 ≤ 6 ∧
      (List.replicate 5 10000 : List Nat) = List.replicate (6 - 1) 10000 := by
  have h := download_with_retry_budget retry_action_fail
    (.error (.DownloadFailed "connection refused")) 6 (List.replicate 5 10000) rfl
  exact ⟨h.1, h.2.1, h.2.2.1⟩

/-- C4 counterexample: the public error type has no `NotFound` and no
`InvalidFormat` variants (its only variants are `IoError`,
`ReqwestError`, `SerdeJsonError`, `DownloadFailed`).  At a concrete 404
response and at a concrete non-parsing 200 response, `download_metadata`
returns errors of the SAME tagged kind, `DownloadFailed` — not-found and
invalid-format are not separate tagged kinds, only different message
texts. -/
theorem download_metadata_kinds_counterexample :
    download_metadata "FARCASTER_NETWORK_MAINNET" 0 "https://cdn.example"
        (.ok ⟨404, none⟩)
      = .error (.DownloadFailed (not_found_message "FARCASTER_NETWORK_MAINNET" 0
          ("https://cdn.example/" ++ metadata_path "FARCASTER_NETWORK_MAINNET" 0))) ∧
    download_metadata "FARCASTER_NETWORK_MAINNET" 0 "https://cdn.example"
        (.ok ⟨200, none⟩)
      = .error (.DownloadFailed (invalid_format_message
          ("https://cdn.example/" ++ metadata_path "FARCASTER_NETWORK_MAINNET" 0))) ∧
    errKind (.DownloadFailed (not_found_message "FARCASTER_NETWORK_MAINNET" 0
        ("https://cdn.example/" ++ metadata_path "FARCASTER_NETWORK_MAINNET" 0)))
      = errKind (.DownloadFailed (invalid_format_message
        ("https://cdn.example/" ++ metadata_path "FARCASTER_NETWORK_MAINNET" 0))) :=
  ⟨rfl, rfl, rfl⟩

/-- C4 amended: a transport failure is surfaced as `ReqwestError`; a 404
yields `DownloadFailed` whose message enumerates the likely caller
mistakes; any other non-success status yields `DownloadFailed` with the
status; a body that does not parse yields `DownloadFailed` naming the
expected fields; a parsing body on a success status is returned.  The
public type thus distinguishes generic I/O, transport, JSON-serde and
download-failure kinds; not-found and invalid-format are distinguished
only by message text inside `DownloadFailed`. -/
theorem download_metadata_errors (network : String) (shard_id : Nat)
    (base_url : String) (r : MetaResponse) :
    (∀ e, download_metadata network shard_id base_url (.error e)
        = .error (.ReqwestError e)) ∧
    (r.status = 404 → download_metadata network shard_id base_url (.ok r)
        = .error (.DownloadFailed (not_found_message network shard_id
            (base_url ++ "/" ++ metadata_path network shard_id)))) ∧
    (is_success r.status = false → r.status ≠ 404 →
      download_metadata network shard_id base_url (.ok r)
        = .error (.DownloadFailed (fetch_failed_message
            (base_url ++ "/" ++ metadata_path network shard_id) r.status))) ∧
    (is_success r.status = true → r.body = none →
      download_metadata network shard_id base_url (.ok r)
        = .error (.DownloadFailed (invalid_format_message
            (base_url ++ "/" ++ metadata_path network shard_id)))) ∧
    (∀ m, is_success r.status = true → r.body = some m →
      download_metadata network shard_id base_url (.ok r) = .ok m) := by
  obtain ⟨status, body⟩ := r
  refine ⟨fun e => rfl, ?_, ?_, ?_, ?_⟩
  · intro hs
    simp only at hs
    subst hs
    simp [download_metadata, is_success]
  · intro hns h404
    simp only at hns h404
    simp [download_metadata, hns, h404]
  · intro hsucc hbody
    simp only at hsucc hbody
    subst hbody
    simp [download_metadata, hsucc]
  · intro m hsucc hbody
    simp only at hsucc hbody
    subst hbody
    simp [download_metadata, hsucc]

/-- C4 witness: a concrete 500 response yields the generic
`DownloadFailed` fetch-failure error. -/
theorem download_metadata_errors_witness :
    download_metadata "FARCASTER_NETWORK_TESTNET" 1 "https://cdn.example"
        (.ok ⟨500, none⟩)
      = .error (.DownloadFailed (fetch_failed_message
          ("https://cdn.example/" ++ metadata_path "FARCASTER_NETWORK_TESTNET" 1)
          500)) := by
  have h := download_metadata_errors "FARCASTER_NETWORK_TESTNET" 1
    "https://cdn.example" ⟨500, none⟩
  exact h.2.2.1 (by decide) (by decide)

/-- A fully successful single-shard environment: no persisted metadata,
resolution and every chunk download succeed, empty initial working
directory. -/
def orchestrator_env_ok : OrchestratorEnv :=
  { persisted := none
    resolve := fun _ =>
      .ok { key_base := "FARCASTER_NETWORK_MAINNET/0/1000"
            chunks := ["chunk_0.gz"]
            timestamp := 1000 }
    download_shard := fun _ => .ok ()
    init_files := [] }

/-- C2 (against the claim): a fully successful `All` run over shard 0
completes with `Ok` while the working directory still contains the
persisted `metadata.json`, the shard subfolder, the chunk file and the
per-shard archive — `download_snapshots` in src/orchestrator.rs performs
no cleanup at all (the pre-refactor implementation at src/lib.rs:632
runs `remove_dir_all(snapshot_dir)` at exactly this point). -/
theorem download_snapshots_all_leaves_workdir :
    download_snapshots orchestrator_env_ok .All [0]
      = (.ok ["metadata.json", "shard-0", "shard-0/chunk_0.gz",
              "shard_0_snapshot.tar"], [0]) ∧
    ["metadata.json", "shard-0", "shard-0/chunk_0.gz",
     "shard_0_snapshot.tar"] ≠ ([] : List String) :=
  ⟨rfl, by decide⟩

/-- The metadata of shard 0 in the C9 scenario. -/
def metadata_shard0 : SnapshotMetadata :=
  { key_base := "FARCASTER_NETWORK_MAINNET/0/1000"
    chunks := ["chunk_0.gz"]
    timestamp := 1000 }

/-- A partially covering persisted metadata file: it parses, but holds
shard 0 only; shard 0's chunk file already exists in the working
directory; resolution would succeed for every shard if it were called. -/
def orchestrator_env_partial : OrchestratorEnv :=
  { persisted := some [("0", metadata_shard0)]
    resolve := fun _ => .ok metadata_shard0
    download_shard := fun _ => .ok ()
    init_files := ["shard-0/chunk_0.gz"] }

/-- C9 counterexample: a `MergeOnly` run over shards [0, 1] whose
persisted metadata loads successfully but covers only shard 0: the claim
says resolution is then performed and the run does not fail in an
uncontrolled way; the code skips resolution (the loaded map is
non-empty: the resolved-shard list is empty) and panics at the
`all_metadata[&"1"]` lookup. -/
theorem download_snapshots_partial_load_panics :
    download_snapshots orchestrator_env_partial .MergeOnly [0, 1]
      = (.panic, []) :=
  rfl

/-- C9 amended: on `MergeOnly`/`ExtractOnly` the orchestrator first
attempts to load the persisted metadata file, and resolution is skipped
exactly when the file loads as a NON-EMPTY map — regardless of whether it
covers the requested shards; when the loaded map is non-empty but the
first requested shard is missing from it, the run panics at the metadata
lookup instead of resolving the missing shard. -/
theorem download_snapshots_metadata_load (env : OrchestratorEnv)
    (stage : ExecutionStage) (shard_ids : List Nat)
    (hstage : stage = .MergeOnly ∨ stage = .ExtractOnly) :
    ((env.persisted.getD []).isEmpty = true →
      (download_snapshots env stage shard_ids).2
        = resolve_calls env.resolve shard_ids) ∧
    ((env.persisted.getD []).isEmpty = false →
      (download_snapshots env stage shard_ids).2 = [] ∧
      (∀ s rest, shard_ids = s :: rest →
        lookup_metadata (env.persisted.getD []) (toString s) = none →
        (download_snapshots env stage shard_ids).1 = .panic)) := by
  have hbeq : (stage == ExecutionStage.MergeOnly
      || stage == ExecutionStage.ExtractOnly) = true := by
    rcases hstage with h | h <;> subst h <;> rfl
  constructor
  · intro hempty
    simp only [download_snapshots, hbeq, if_true, hempty]
    cases hres : resolve_all env.resolve shard_ids with
    | error e => rfl
    | ok m => rfl
  · intro hfull
    have hne : ¬ (env.persisted.getD []).isEmpty = true := by simp [hfull]
    constructor
    · simp only [download_snapshots, hbeq, if_true]
      rw [if_neg hne]
    · intro s rest hshards hlookup
      subst hshards
      simp only [download_snapshots, hbeq, if_true]
      rw [if_neg hne]
      simp only [process_shards, hlookup]

/-- C9 witness for the amended statement: the partial environment with
the missing shard first resolves nothing and panics immediately. -/
theorem download_snapshots_metadata_load_witness :
    (download_snapshots orchestrator_env_partial .MergeOnly [1]).2 = [] ∧
    (download_snapshots orchestrator_env_partial .MergeOnly [1]).1 = .panic := by
  have h := (download_snapshots_metadata_load orchestrator_env_partial .MergeOnly
    [1] (Or.inl rfl)).2 (by decide)
  exact ⟨h.1, h.2 1 [] rfl (by decide)⟩
